import Mathlib

/-!
Verification of the DataVault inventory tracker (src/app/page.tsx) against its
natural-language specification.

The embedding below translates the data model, the derived-metric functions,
the statistics reduction, the query pipeline, the item-store mutations and the
gateway-response parsing of `src/app/page.tsx` into Lean.  JavaScript numbers
are modelled as rationals (`ℚ`), optional fields (`salePrice`, `saleDate`) as
`Option`, and JavaScript truthiness of a numeric field (`item.salePrice ? _ : _`)
as "present and nonzero".  Strings are Lean `String`s; character-level string
algorithms (`toLowerCase`, `includes`, `replace(/[^\d]/g,'')`, `JSON.parse`)
operate on `List Char`.
-/

namespace DataVault

/-- JavaScript truthiness of an optional numeric value: `undefined` and `0`
are falsy, every other number is truthy (source: `item.salePrice ? _ : _`). -/
def jsTruthy : Option ℚ → Bool
  | some q => q != 0
  | none => false

/-- The central entity of src/app/page.tsx (`interface VintageItem`). -/
structure VintageItem where
  id : Int
  name : String
  category : String
  year : String
  purchasePrice : ℚ
  purchaseDate : String
  currentValue : ℚ
  image : String
  salePrice : Option ℚ
  saleDate : Option String
  createdAt : Int
deriving DecidableEq, Repr

/-- Source line 43:
`item.salePrice ? item.salePrice - item.purchasePrice : item.currentValue - item.purchasePrice`. -/
def calculateProfit (item : VintageItem) : ℚ :=
  if jsTruthy item.salePrice then item.salePrice.getD 0 - item.purchasePrice
  else item.currentValue - item.purchasePrice

/-- Rounding of `x` to the nearest integer as JavaScript `toFixed` does it:
round half away from zero (ECMA-262 `Number.prototype.toFixed` picks the
larger candidate on ties of the magnitude, sign reattached afterwards). -/
def jsRoundHalfAway (x : ℚ) : Int :=
  if x < 0 then -round (-x) else round x

/-- Numeric value of `x.toFixed(1)`: `x` rounded to one decimal place.
The source renders this value as a one-decimal string; `Number` applied to
that string recovers exactly this rational. -/
def jsToFixed1 (x : ℚ) : ℚ :=
  (jsRoundHalfAway (x * 10) : ℚ) / 10

/-- Source line 44:
`((calculateProfit(item) / item.purchasePrice) * 100).toFixed(1)`,
modelled as the numeric value of the rendered string. -/
def calculateProfitPercentage (item : VintageItem) : ℚ :=
  jsToFixed1 (calculateProfit item / item.purchasePrice * 100)

/-- Modelled from the spec: `profit(item) = (salePrice ?? currentValue) - purchasePrice`
(the `??` nullish-coalescing reading of the spec, which uses `salePrice`
whenever it is present, even when it is `0`). -/
def specProfit (item : VintageItem) : ℚ :=
  item.salePrice.getD item.currentValue - item.purchasePrice

/-- The statistics record computed by `StatisticsCard` (source lines 52-61). -/
structure Stats where
  soldItems : Nat
  unsoldItems : Nat
  totalSpent : ℚ
  totalValue : ℚ
  totalProfit : ℚ
  averageProfit : ℚ
  mostProfitableItem : Option VintageItem
deriving DecidableEq, Repr

/-- Source lines 52-61: the `useMemo` body of `StatisticsCard`.
`items.reduce((max, item) => ..., items[0])` folds over the whole list with
`items[0]` as the initial accumulator. -/
def computeStats (items : List VintageItem) : Stats :=
  let soldItems := (items.filter (fun item => jsTruthy item.salePrice)).length
  let unsoldItems := items.length - soldItems
  let totalSpent := items.foldl (fun sum item => sum + item.purchasePrice) 0
  let totalValue := items.foldl
    (fun sum item =>
      sum + (if jsTruthy item.salePrice then item.salePrice.getD 0 else item.currentValue)) 0
  let totalProfit := items.foldl (fun sum item => sum + calculateProfit item) 0
  let averageProfit := if items.length > 0 then totalProfit / (items.length : ℚ) else 0
  let mostProfitableItem :=
    match items with
    | [] => none
    | x :: _ =>
      some (items.foldl
        (fun max item => if calculateProfit item > calculateProfit max then item else max) x)
  ⟨soldItems, unsoldItems, totalSpent, totalValue, totalProfit, averageProfit,
    mostProfitableItem⟩

/-- An unsold example item (spec's Watch example, adapted). -/
def watchItem : VintageItem :=
  { id := 1, name := "Watch", category := "Accessori", year := "1970"
    purchasePrice := 100, purchaseDate := "01/01/2020", currentValue := 150
    image := "img", salePrice := none, saleDate := none, createdAt := 1 }

/-- An item sold at price 0: `salePrice` is present but JavaScript-falsy. -/
def zeroSaleItem : VintageItem :=
  { id := 2, name := "Freebie", category := "Varie", year := "1980"
    purchasePrice := 10, purchaseDate := "01/01/2020", currentValue := 50
    image := "img", salePrice := some 0, saleDate := some "01/01/2021", createdAt := 2 }

/-- An otherwise bland item created (and identified) at time `t`. -/
def itemAt (t : Int) : VintageItem :=
  { id := t, name := "a", category := "c", year := "1900", purchasePrice := 1
    purchaseDate := "01/01/1950", currentValue := 2, image := "i"
    salePrice := none, saleDate := none, createdAt := t }

/-- JavaScript `toLowerCase`, per character (ASCII-adequate for the claims). -/
def jsLower (s : String) : List Char := s.data.map Char.toLower

/-- JavaScript `String.prototype.includes`: substring containment, checked by
testing the needle as a prefix at every position of the haystack. -/
def listIncludes : List Char → List Char → Bool
  | [], n => n.isPrefixOf []
  | c :: t, n => n.isPrefixOf (c :: t) || listIncludes t n

/-- Source lines 442-443: the search stage of `filteredAndSortedItems`. -/
def searchPred (searchTerm : String) (item : VintageItem) : Bool :=
  listIncludes (jsLower item.name) (jsLower searchTerm) ||
    listIncludes (jsLower item.category) (jsLower searchTerm)

/-- The first `.filter` of the query pipeline. -/
def searchFilter (searchTerm : String) (items : List VintageItem) : List VintageItem :=
  items.filter (searchPred searchTerm)

/-- Source lines 444-449: the sale-state filter (`all | sold | unsold`);
note that this stage tests presence (`!== undefined`), not truthiness. -/
def saleFilterPred (filterBy : String) (item : VintageItem) : Bool :=
  if filterBy = "all" then true
  else if filterBy = "sold" then item.salePrice.isSome
  else if filterBy = "unsold" then item.salePrice.isNone
  else true

/-- Source line 450: the category filter. -/
def categoryFilterPred (filterCategory : String) (item : VintageItem) : Bool :=
  filterCategory = "all" || item.category = filterCategory

/-- Decimal digits to a natural number. -/
def digitsToNat (l : List Char) : Nat := l.foldl (fun a c => a * 10 + (c.toNat - 48)) 0

/-- A nonempty list of decimal digits parsed as a natural number. -/
def parseAllDigits (l : List Char) : Option Nat :=
  if !l.isEmpty && l.all Char.isDigit then some (digitsToNat l) else none

/-- Value of `new Date(s.split('/').reverse().join('-')).getTime()` for a
`dd/mm/yyyy` string, modelled by the order-faithful encoding
`y * 10000 + m * 100 + d` (`getTime` is strictly monotone in the calendar
date and the sort only uses the sign of differences of these values);
unparseable dates map to 0. -/
def dateValue (s : String) : ℚ :=
  match (s.data.splitOn '/').reverse with
  | [y, m, d] =>
    match parseAllDigits y, parseAllDigits m, parseAllDigits d with
    | some yn, some mn, some dn =>
      if 1 ≤ mn && mn ≤ 12 && 1 ≤ dn && dn ≤ 31 then ((yn * 10000 + mn * 100 + dn : Nat) : ℚ)
      else 0
    | _, _, _ => 0
  | _ => 0

/-- Source lines 451-458: the sort comparator. The base `comparison` is the
key of `b` minus the key of `a`; direction `asc` returns it unchanged and
`desc` negates it. -/
def itemComparator (sortKey sortOrder : String) (a b : VintageItem) : ℚ :=
  let comparison : ℚ :=
    if sortKey = "profit" then calculateProfit b - calculateProfit a
    else if sortKey = "date" then dateValue b.purchaseDate - dateValue a.purchaseDate
    else if sortKey = "percentage" then calculateProfitPercentage b - calculateProfitPercentage a
    else if sortKey = "createdAt" then (b.createdAt : ℚ) - (a.createdAt : ℚ)
    else 0
  if sortOrder = "asc" then comparison else -comparison

/-- One insertion step of the stable comparator sort: `x` goes in front of the
first element `y` with `cmp x y ≤ 0` (ties keep the original relative order,
as `Array.prototype.sort` is stable). -/
def jsSortInsert (cmp : VintageItem → VintageItem → ℚ) (x : VintageItem) :
    List VintageItem → List VintageItem
  | [] => [x]
  | y :: ys => if cmp x y ≤ 0 then x :: y :: ys else y :: jsSortInsert cmp x ys

/-- Stable comparator sort modelling `Array.prototype.sort(cmp)`: elements are
ordered so that `a` precedes `b` when `cmp a b < 0`, with ties in input order. -/
def jsSort (cmp : VintageItem → VintageItem → ℚ) (l : List VintageItem) : List VintageItem :=
  l.foldr (jsSortInsert cmp) []

/-- Source lines 440-460: the full query pipeline
search → sale filter → category filter → sort. -/
def filteredAndSortedItems (items : List VintageItem)
    (searchTerm filterBy filterCategory sortKey sortOrder : String) : List VintageItem :=
  jsSort (itemComparator sortKey sortOrder)
    (((searchFilter searchTerm items).filter (saleFilterPred filterBy)).filter
      (categoryFilterPred filterCategory))

/-- Whitespace characters recognised by the JavaScript string functions used
in the source (`trim`, `parseInt`, `JSON.parse`); the ASCII subset suffices. -/
def isWsChar (c : Char) : Bool :=
  c = ' ' || c = '\t' || c = '\n' || c = '\r'

/-- JavaScript `parseInt(s, 10)`: skip leading whitespace, optional sign, then
the maximal run of leading decimal digits; `NaN` (here `none`) when no digit
follows. -/
def jsParseInt (l : List Char) : Option Int :=
  match l.dropWhile isWsChar with
  | '-' :: rest =>
    let ds := rest.takeWhile Char.isDigit
    if ds.isEmpty then none else some (-(digitsToNat ds : Int))
  | '+' :: rest =>
    let ds := rest.takeWhile Char.isDigit
    if ds.isEmpty then none else some (digitsToNat ds : Int)
  | l' =>
    let ds := l'.takeWhile Char.isDigit
    if ds.isEmpty then none else some (digitsToNat ds : Int)

/-- JavaScript string replace with the regex of non-digits: keep only the decimal digits. -/
def stripNonDigits (l : List Char) : List Char := l.filter Char.isDigit

/-- JavaScript `String.prototype.trim`. -/
def jsTrim (l : List Char) : List Char :=
  ((l.dropWhile isWsChar).reverse.dropWhile isWsChar).reverse

/-- Value used for `new Date()` comparisons at validation time: a `purchaseDate` string
parses to: the `dd/mm/yyyy` reversal of `validateForm` is modelled by the same
order-faithful date encoding used by `dateValue`; `none` is JavaScript's
`Invalid Date` (whose comparisons are all false). -/
def purchaseDateValue (s : String) : Option ℚ :=
  match (s.data.splitOn '/').reverse with
  | [y, m, d] =>
    match parseAllDigits y, parseAllDigits m, parseAllDigits d with
    | some yn, some mn, some dn =>
      if 1 ≤ mn && mn ≤ 12 && 1 ≤ dn && dn ≤ 31 then
        some ((yn * 10000 + mn * 100 + dn : Nat) : ℚ)
      else none
    | _, _, _ => none
  | _ => none

/-- The add-form buffer `newItem` (and the shape `validateForm` sees): the two
numeric inputs hold `null` (`none`) when the input field has been cleared. -/
structure CandidateItem where
  name : String
  category : String
  year : String
  purchasePrice : Option ℚ
  purchaseDate : String
  currentValue : Option ℚ
  image : String
deriving DecidableEq, Repr

/-- The `errors` object built by `validateForm`: one flag per checked field
(a field is in the returned set iff its flag is true). -/
structure FormErrors where
  name : Bool
  category : Bool
  year : Bool
  purchasePrice : Bool
  purchaseDate : Bool
  currentValue : Bool
deriving DecidableEq, Repr

/-- True iff `Object.keys(errors).length === 0` is false, i.e. some field failed. -/
def FormErrors.hasErrors (e : FormErrors) : Bool :=
  e.name || e.category || e.year || e.purchasePrice || e.purchaseDate || e.currentValue

/-- Source lines 155-181: `validateForm`. `!item.name` is the empty-string
test; the year must `parseInt` into `[1800, currentYear]`; a parseable
purchase date must not be after now (`Invalid Date` compares false and raises
no error, as in the source). -/
def validateForm (item : CandidateItem) (currentYear : Int) (todayValue : ℚ) : FormErrors :=
  { name := item.name == ""
    category := item.category == ""
    year :=
      if item.year == "" then true
      else
        match jsParseInt item.year.data with
        | none => true
        | some y => decide (y < 1800) || decide (currentYear < y)
    purchasePrice := item.purchasePrice.isNone
    purchaseDate :=
      if item.purchaseDate == "" then true
      else
        match purchaseDateValue item.purchaseDate with
        | some v => decide (todayValue < v)
        | none => false
    currentValue := item.currentValue.isNone }

/-- Source lines 183-207: `addItem`. On success the candidate is given
`id = createdAt = Date.now()`, its numeric fields pass through `Number(...)`
(`Number(null) = 0`), and it is prepended; on failure the collection is
untouched and the error set is published (`setFormErrors`). The returned pair
is (new collection, reported error set). -/
def addItem (items : List VintageItem) (newItem : CandidateItem) (nowMs : Int)
    (currentYear : Int) (todayValue : ℚ) : List VintageItem × FormErrors :=
  let errors := validateForm newItem currentYear todayValue
  if errors.hasErrors then (items, errors)
  else
    let newItemWithId : VintageItem :=
      { id := nowMs, createdAt := nowMs
        name := newItem.name, category := newItem.category, year := newItem.year
        purchaseDate := newItem.purchaseDate, image := newItem.image
        purchasePrice := newItem.purchasePrice.getD 0
        currentValue := newItem.currentValue.getD 0
        salePrice := none, saleDate := none }
    (newItemWithId :: items, errors)

/-- The editing buffer `editingItem`: a full item whose numeric inputs may
have been cleared to `null` in the dialog. -/
structure EditingItem where
  id : Int
  name : String
  category : String
  year : String
  purchasePrice : Option ℚ
  purchaseDate : String
  currentValue : Option ℚ
  image : String
  salePrice : Option ℚ
  saleDate : Option String
  createdAt : Int
deriving DecidableEq, Repr

/-- The fields of the editing buffer that `validateForm` inspects. -/
def EditingItem.toCandidate (e : EditingItem) : CandidateItem :=
  { name := e.name, category := e.category, year := e.year
    purchasePrice := e.purchasePrice, purchaseDate := e.purchaseDate
    currentValue := e.currentValue, image := e.image }

/-- The item stored on a successful update (validation guarantees the numeric
fields are non-null, so `getD 0` is the identity there). -/
def EditingItem.toItem (e : EditingItem) : VintageItem :=
  { id := e.id, name := e.name, category := e.category, year := e.year
    purchasePrice := e.purchasePrice.getD 0, purchaseDate := e.purchaseDate
    currentValue := e.currentValue.getD 0, image := e.image
    salePrice := e.salePrice, saleDate := e.saleDate, createdAt := e.createdAt }

/-- Source lines 209-225: `updateItem` — validate, then replace the item with
matching `id` in place; on failure the collection is untouched and the error
set is published. -/
def updateItem (items : List VintageItem) (updatedItem : EditingItem)
    (currentYear : Int) (todayValue : ℚ) : List VintageItem × FormErrors :=
  let errors := validateForm updatedItem.toCandidate currentYear todayValue
  if errors.hasErrors then (items, errors)
  else
    (items.map (fun item => if item.id = updatedItem.id then updatedItem.toItem else item),
      errors)

/-- Source lines 227-236: `sellItem` sets `salePrice` and
`saleDate = new Date().toLocaleDateString('it-IT')` on the matching item. -/
def sellItem (items : List VintageItem) (id : Int) (salePrice : ℚ) (saleDateNow : String) :
    List VintageItem :=
  items.map (fun item =>
    if item.id = id then { item with salePrice := some salePrice, saleDate := some saleDateNow }
    else item)

/-- Source lines 238-247: `updateItemValue` sets `currentValue` on the
matching item. -/
def updateItemValue (items : List VintageItem) (id : Int) (newValue : ℚ) : List VintageItem :=
  items.map (fun item => if item.id = id then { item with currentValue := newValue } else item)

/-- A candidate failing validation: empty name and empty purchase date. -/
def badCandidate : CandidateItem :=
  { name := "", category := "c", year := "1900", purchasePrice := some 5
    purchaseDate := "", currentValue := some 6, image := "i" }

/-- An editing buffer failing validation: everything blank or cleared. -/
def badEditingItem : EditingItem :=
  { id := 1, name := "", category := "", year := "", purchasePrice := none
    purchaseDate := "", currentValue := none, image := ""
    salePrice := none, saleDate := none, createdAt := 1 }

/-- The JSON values produced by the subset of `JSON.parse` that the gateway
responses exercise: objects with string keys, string values and integer
values (no escapes, fractions, exponents, arrays or literals — inputs outside
this subset are modelled as parse failures). -/
inductive JsonLite where
  | num : Int → JsonLite
  | str : List Char → JsonLite
  | obj : List (List Char × JsonLite) → JsonLite

/-- Skip JSON whitespace. -/
def skipWs (l : List Char) : List Char := l.dropWhile isWsChar

/-- Parse a JSON string literal without escape sequences: `"` body `"`. -/
def parseStringLit : List Char → Option (List Char × List Char)
  | '"' :: rest =>
    let body := rest.takeWhile (fun c => !(c = '"' || c = '\\'))
    (match rest.drop body.length with
     | '"' :: rest2 => some (body, rest2)
     | _ => none)
  | _ => none

/-- Parse a JSON integer literal: optional minus sign, then digits. -/
def parseIntLit (l : List Char) : Option (Int × List Char) :=
  match l with
  | '-' :: rest =>
    let ds := rest.takeWhile Char.isDigit
    if ds.isEmpty then none else some (-(digitsToNat ds : Int), rest.drop ds.length)
  | _ =>
    let ds := l.takeWhile Char.isDigit
    if ds.isEmpty then none else some ((digitsToNat ds : Int), l.drop ds.length)

mutual

/-- Recursive-descent parser for the `JSON.parse` subset (fuel-bounded). -/
def parseJsonValue : Nat → List Char → Option (JsonLite × List Char)
  | 0, _ => none
  | Nat.succ fuel, l =>
    match skipWs l with
    | '\x7b' :: rest =>
      (match skipWs rest with
       | '\x7d' :: rest2 => some (.obj [], rest2)
       | rest2 => parseJsonPairs fuel rest2 [])
    | l2 =>
      (match l2 with
       | '"' :: _ => (parseStringLit l2).map (fun p => (.str p.1, p.2))
       | _ => (parseIntLit l2).map (fun p => (.num p.1, p.2)))

/-- Parse the `"key": value` members of a JSON object body (fuel-bounded);
`acc` holds the members already read, in reverse. -/
def parseJsonPairs : Nat → List Char → List (List Char × JsonLite) →
    Option (JsonLite × List Char)
  | 0, _, _ => none
  | Nat.succ fuel, l, acc =>
    match parseStringLit (skipWs l) with
    | none => none
    | some (key, rest) =>
      (match skipWs rest with
       | ':' :: rest2 =>
         (match parseJsonValue fuel rest2 with
          | none => none
          | some (v, rest3) =>
            (match skipWs rest3 with
             | ',' :: rest4 => parseJsonPairs fuel rest4 ((key, v) :: acc)
             | '\x7d' :: rest4 => some (.obj ((key, v) :: acc).reverse, rest4)
             | _ => none))
       | _ => none)

end

/-- Model of `JSON.parse` (on the subset above): parse one value and require only
whitespace to remain. -/
def jsonParse (l : List Char) : Option JsonLite :=
  match parseJsonValue (l.length + 2) l with
  | some (v, rest) => if (skipWs rest).isEmpty then some v else none
  | none => none

/-- JavaScript property access `obj.key` on a parsed JSON value: `none` is
`undefined` (non-object receiver or missing key); later duplicate keys win,
as in `JSON.parse`. -/
def getField (v : JsonLite) (key : List Char) : Option JsonLite :=
  match v with
  | .obj members => List.lookup key members.reverse
  | _ => none

/-- The `SuggestedFields` contract of the field-suggestion response
(`interface SuggestedFields` with all six fields present and typed). -/
structure SuggestedFields where
  category : List Char
  year : List Char
  purchaseDate : List Char
  image : List Char
  purchasePrice : Int
  currentValue : Int
deriving DecidableEq, Repr

/-- Source lines 377-387: the `typeof` checks of `parseJSONContent` — the
four string fields must be strings and the two price fields numbers;
anything else (missing key, wrong type, non-object value) throws. -/
def typeCheckSuggested (v : JsonLite) : Option SuggestedFields :=
  match getField v ("category".data), getField v ("year".data),
      getField v ("purchasePrice".data), getField v ("purchaseDate".data),
      getField v ("currentValue".data), getField v ("image".data) with
  | some (.str c), some (.str y), some (.num pp), some (.str pd), some (.num cv),
      some (.str im) => some ⟨c, y, pd, im, pp, cv⟩
  | _, _, _, _, _, _ => none

/-- JavaScript `String.prototype.indexOf` of a character (`-1` if absent). -/
def indexOfChar (l : List Char) (c : Char) : Int :=
  match l.findIdx? (· = c) with
  | some i => i
  | none => -1

/-- JavaScript `String.prototype.lastIndexOf` of a character (`-1` if absent). -/
def lastIndexOfChar (l : List Char) (c : Char) : Int :=
  match l.reverse.findIdx? (· = c) with
  | some i => (l.length : Int) - 1 - i
  | none => -1

/-- JavaScript `String.prototype.substring`: clamp both indices to
`[0, length]`, swap them if needed, and slice. -/
def jsSubstring (l : List Char) (a b : Int) : List Char :=
  let len : Int := l.length
  let a' := min (max a 0) len
  let b' := min (max b 0) len
  let lo := min a' b'
  let hi := max a' b'
  (l.take hi.toNat).drop lo.toNat

/-- Source lines 368-393: `parseJSONContent` — cut from the first `{` to the
last `}` (via `substring`), `JSON.parse` the cut, check the six field types;
any failure throws a `SyntaxError`, modelled as `none`. -/
def parseJSONContent (content : List Char) : Option SuggestedFields :=
  let start := indexOfChar content '\x7b'
  let stop := lastIndexOfChar content '\x7d' + 1
  if start == -1 || stop == -1 then none
  else
    match jsonParse (jsSubstring content start stop) with
    | none => none
    | some parsed => typeCheckSuggested parsed

/-- Source lines 284-327: the response-extraction logic of
`findSuggestedPrice` given the gateway's text `agentResponse` and the item's
`currentValue`.  A trimmed response wrapped in braces goes through
`JSON.parse` and its `prezzo` field; otherwise the raw text is used.  A string
price is stripped to its digits; `parseInt` then produces the result, and any
failure (`JSON.parse` throw, missing/non-numeric field, `NaN`) returns the
item's existing `currentValue`. -/
def findSuggestedPrice (agentResponse : List Char) (currentValue : ℚ) : ℚ :=
  let r := jsTrim agentResponse
  if r.head? == some '\x7b' && r.getLast? == some '\x7d' then
    match jsonParse r with
    | none => currentValue
    | some parsed =>
      (match getField parsed ("prezzo".data) with
       | some (.num n) => (n : ℚ)
       | some (.str s) =>
         (match jsParseInt (stripNonDigits s) with
          | some n => (n : ℚ)
          | none => currentValue)
       | _ => currentValue)
  else
    match jsParseInt (stripNonDigits r) with
    | some n => (n : ℚ)
    | none => currentValue

/-- The spec's free-text price response. -/
def respFreeText : String := "Il prezzo è 250€"

/-- The spec's bare-JSON price response. -/
def respJson : String := "\x7b\"prezzo\":99\x7d"

/-- The spec's unusable price response. -/
def respNoData : String := "nessun dato"

/-- A field-suggestion response embedding a well-typed JSON object in prose. -/
def goodContent : String :=
  "Ecco: \x7b\"category\":\"Oro\",\"year\":\"1900\",\"purchasePrice\":10,\"purchaseDate\":\"01/02/1999\",\"currentValue\":25,\"image\":\"u\"\x7d ok"

/-- The fields encoded in `goodContent`. -/
def goodFields : SuggestedFields :=
  { category := "Oro".data, year := "1900".data, purchaseDate := "01/02/1999".data
    image := "u".data, purchasePrice := 10, currentValue := 25 }

/-- C1 counterexample: for the item sold at `salePrice = 0` the code computes
profit from `currentValue` (`50 - 10 = 40`), while the claimed formula
`(salePrice ?? currentValue) - purchasePrice` gives `0 - 10 = -10`. -/
theorem calculateProfit_zero_sale_counterexample :
    calculateProfit zeroSaleItem ≠
      zeroSaleItem.salePrice.getD zeroSaleItem.currentValue - zeroSaleItem.purchasePrice := by
  norm_num [calculateProfit, zeroSaleItem, jsTruthy]

/-- C1 (amended): for every item whose `salePrice` is not `0`, the profit is
`(salePrice ?? currentValue) - purchasePrice`; an item with `salePrice = 0` is
treated as unsold by the truthiness test and its profit uses `currentValue`. -/
theorem calculateProfit_eq_specProfit (item : VintageItem)
    (h : item.salePrice ≠ some 0) :
    calculateProfit item = specProfit item := by
  unfold calculateProfit specProfit jsTruthy
  match hsp : item.salePrice with
  | none => simp
  | some q =>
    have hq : q ≠ 0 := by
      intro hq0
      exact h (by rw [hsp, hq0])
    simp [hq]

/-- C1 witness: the amended profit identity evaluated on the concrete unsold
Watch item. -/
theorem calculateProfit_eq_specProfit_witness :
    watchItem.salePrice ≠ some 0 ∧ calculateProfit watchItem = specProfit watchItem :=
  ⟨by decide, calculateProfit_eq_specProfit watchItem (by decide)⟩

/-- C3 counterexample: over the one-item list holding the item sold at price 0,
the statistics count 0 sold items although `salePrice` is present on 1 item. -/
theorem soldItems_zero_sale_counterexample :
    (computeStats [zeroSaleItem]).soldItems ≠
      [zeroSaleItem].countP (fun it => it.salePrice.isSome) := by
  norm_num [computeStats, zeroSaleItem, jsTruthy, List.countP, List.countP.go]

/-- C3 (amended): the sold count equals the number of items whose `salePrice`
is present and nonzero (JavaScript truthiness; an item sold at price 0 counts
as unsold), and the unsold count is the total count minus the sold count. -/
theorem soldItems_unsoldItems_characterization (items : List VintageItem) :
    (computeStats items).soldItems = items.countP (fun it => jsTruthy it.salePrice) ∧
    (computeStats items).unsoldItems = items.length - (computeStats items).soldItems := by
  constructor
  · simp [computeStats, List.countP_eq_length_filter]
  · simp [computeStats]

/-- Helper for C8: folding the strict-improvement step of
`items.reduce((max, item) => profit(item) > profit(max) ? item : max, items[0])`
over `l` starting from `a` yields the first profit-maximising element of
`a :: l`: everything before it has strictly smaller profit, everything after it
has no larger profit. -/
theorem foldl_mostProfitable (l : List VintageItem) : ∀ a : VintageItem,
    ∃ l₁ l₂,
      a :: l = l₁ ++
        (l.foldl (fun max item =>
          if calculateProfit item > calculateProfit max then item else max) a) :: l₂ ∧
      (∀ y ∈ l₁, calculateProfit y <
        calculateProfit (l.foldl (fun max item =>
          if calculateProfit item > calculateProfit max then item else max) a)) ∧
      (∀ y ∈ l₂, calculateProfit y ≤
        calculateProfit (l.foldl (fun max item =>
          if calculateProfit item > calculateProfit max then item else max) a)) := by
  induction l with
  | nil =>
    intro a
    exact ⟨[], [], rfl, by simp, by simp⟩
  | cons b t ih =>
    intro a
    by_cases h : calculateProfit b > calculateProfit a
    · obtain ⟨l₁, l₂, heq, h₁, h₂⟩ := ih b
      set r := t.foldl (fun max item =>
        if calculateProfit item > calculateProfit max then item else max) b with hr
      have hfold : (b :: t).foldl (fun max item =>
          if calculateProfit item > calculateProfit max then item else max) a = r := by
        simp [List.foldl_cons, if_pos h, hr]
      have hbr : calculateProfit b ≤ calculateProfit r := by
        have hmem : b ∈ l₁ ++ r :: l₂ := heq ▸ List.mem_cons_self b t
        rcases List.mem_append.mp hmem with hb | hb
        · exact le_of_lt (h₁ b hb)
        · rcases List.mem_cons.mp hb with hb | hb
          · exact le_of_eq (congrArg _ hb)
          · exact h₂ b hb
      refine ⟨a :: l₁, l₂, ?_, ?_, ?_⟩
      · rw [hfold]
        simpa [List.cons_append] using congrArg (a :: ·) heq
      · intro y hy
        rw [hfold]
        rcases List.mem_cons.mp hy with hy | hy
        · exact hy ▸ lt_of_lt_of_le h hbr
        · exact h₁ y hy
      · intro y hy
        rw [hfold]
        exact h₂ y hy
    · obtain ⟨l₁, l₂, heq, h₁, h₂⟩ := ih a
      set r := t.foldl (fun max item =>
        if calculateProfit item > calculateProfit max then item else max) a with hr
      have hfold : (b :: t).foldl (fun max item =>
          if calculateProfit item > calculateProfit max then item else max) a = r := by
        simp [List.foldl_cons, if_neg h, hr]
      have hba : calculateProfit b ≤ calculateProfit a := le_of_not_lt h
      cases l₁ with
      | nil =>
        have hra : r = a := by
          have := heq
          simp only [List.nil_append] at this
          exact (List.cons.injEq .. ▸ this).1.symm
        refine ⟨[], b :: t, ?_, by simp, ?_⟩
        · rw [hfold, hra]
          rfl
        · intro y hy
          rw [hfold, hra]
          rcases List.mem_cons.mp hy with hy | hy
          · exact hy ▸ hba
          · have hl₂ : t = l₂ := by
              have := heq
              simp only [List.nil_append] at this
              exact (List.cons.injEq .. ▸ this).2
            have hyr := h₂ y (hl₂ ▸ hy)
            rw [hra] at hyr
            exact hyr
      | cons c l₁t =>
        have hca : c = a := by
          have := heq
          simp only [List.cons_append] at this
          exact ((List.cons.injEq .. ▸ this).1).symm
        have ht : t = l₁t ++ r :: l₂ := by
          have := heq
          simp only [List.cons_append] at this
          exact (List.cons.injEq .. ▸ this).2
        have har : calculateProfit a < calculateProfit r := h₁ a (hca ▸ List.mem_cons_self c l₁t)
        refine ⟨a :: b :: l₁t, l₂, ?_, ?_, ?_⟩
        · rw [hfold]
          simp [ht]
        · intro y hy
          rw [hfold]
          rcases List.mem_cons.mp hy with hy | hy
          · exact hy ▸ har
          · rcases List.mem_cons.mp hy with hy | hy
            · exact hy ▸ lt_of_le_of_lt hba har
            · exact h₁ y (hca ▸ List.mem_cons_of_mem c hy)
        · intro y hy
          rw [hfold]
          exact h₂ y hy

/-- C8: statistics over the empty list are all zero with no best performer;
over a non-empty list the best performer is an item of the list that maximises
profit, and it is the first occurrence among profit ties: every item strictly
before it in the list has strictly smaller profit. -/
theorem stats_empty_and_best_performer :
    computeStats [] = ⟨0, 0, 0, 0, 0, 0, none⟩ ∧
    ∀ (x : VintageItem) (rest : List VintageItem),
      ∃ l₁ m l₂,
        (computeStats (x :: rest)).mostProfitableItem = some m ∧
        x :: rest = l₁ ++ m :: l₂ ∧
        (∀ y ∈ l₁, calculateProfit y < calculateProfit m) ∧
        (∀ y ∈ l₂, calculateProfit y ≤ calculateProfit m) := by
  constructor
  · rfl
  · intro x rest
    have hfold : (x :: rest).foldl (fun max item =>
        if calculateProfit item > calculateProfit max then item else max) x =
        rest.foldl (fun max item =>
          if calculateProfit item > calculateProfit max then item else max) x := by
      simp [List.foldl_cons, if_neg (lt_irrefl (calculateProfit x))]
    obtain ⟨l₁, l₂, heq, h₁, h₂⟩ := foldl_mostProfitable rest x
    refine ⟨l₁, rest.foldl (fun max item =>
      if calculateProfit item > calculateProfit max then item else max) x, l₂, ?_, heq, h₁, h₂⟩
    simp only [computeStats, hfold]

/-- Rounding error bound for the JavaScript `toFixed` rounding step. -/
theorem abs_jsRoundHalfAway_sub (y : ℚ) : |(jsRoundHalfAway y : ℚ) - y| ≤ 1 / 2 := by
  unfold jsRoundHalfAway
  by_cases h : y < 0
  · rw [if_pos h]
    have := abs_sub_round (-y)
    rw [abs_sub_comm] at this
    calc |(((-round (-y) : ℤ)) : ℚ) - y| = |(round (-y) : ℚ) - (-y)| := by
          push_cast
          rw [show -(round (-y) : ℚ) - y = -((round (-y) : ℚ) - (-y)) by ring, abs_neg]
      _ ≤ 1 / 2 := this
  · rw [if_neg h]
    rw [abs_sub_comm]
    exact abs_sub_round y

/-- C9: for every item with positive purchase price, the displayed profit
percentage is `profit / purchasePrice * 100` rounded to one decimal place —
it is an integer number of tenths within half a tenth of the exact ratio —
and on the unsold Watch example (price 100, value 150) the profit is 50 and
the percentage is 50.0. -/
theorem profitPercentage_rounding :
    (∀ item : VintageItem, 0 < item.purchasePrice →
      ∃ n : ℤ, calculateProfitPercentage item = (n : ℚ) / 10 ∧
        |(n : ℚ) / 10 - calculateProfit item / item.purchasePrice * 100| ≤ 1 / 20) ∧
    calculateProfit watchItem = 50 ∧ calculateProfitPercentage watchItem = 50 := by
  refine ⟨?_, ?_, ?_⟩
  · intro item h
    refine ⟨jsRoundHalfAway (calculateProfit item / item.purchasePrice * 100 * 10), rfl, ?_⟩
    have hb := abs_jsRoundHalfAway_sub (calculateProfit item / item.purchasePrice * 100 * 10)
    have hrw : (jsRoundHalfAway (calculateProfit item / item.purchasePrice * 100 * 10) : ℚ) / 10 -
        calculateProfit item / item.purchasePrice * 100 =
        ((jsRoundHalfAway (calculateProfit item / item.purchasePrice * 100 * 10) : ℚ) -
          calculateProfit item / item.purchasePrice * 100 * 10) / 10 := by
      ring
    rw [hrw, abs_div]
    rw [show |(10 : ℚ)| = 10 by norm_num]
    linarith
  · norm_num [calculateProfit, watchItem, jsTruthy]
  · norm_num [calculateProfitPercentage, calculateProfit, watchItem, jsTruthy, jsToFixed1,
      jsRoundHalfAway, round_eq]

/-- C9 witness: the rounding characterisation instantiated on the Watch item. -/
theorem profitPercentage_rounding_witness :
    0 < watchItem.purchasePrice ∧
    ∃ n : ℤ, calculateProfitPercentage watchItem = (n : ℚ) / 10 ∧
      |(n : ℚ) / 10 - calculateProfit watchItem / watchItem.purchasePrice * 100| ≤ 1 / 20 :=
  ⟨by norm_num [watchItem], profitPercentage_rounding.1 watchItem (by norm_num [watchItem])⟩

/-- The function `listIncludes` decides list-substring containment. -/
theorem listIncludes_iff (h n : List Char) : listIncludes h n = true ↔ n <:+: h := by
  induction h with
  | nil =>
    simp [listIncludes, List.isPrefixOf_iff_prefix]
  | cons c t ih =>
    simp [listIncludes, List.isPrefixOf_iff_prefix, ih, List.infix_cons_iff]

/-- C7: the search stage keeps exactly the items whose lowercased name or
category contains the lowercased search term as a substring; the empty term
keeps every item; and the term "wat" matches the item named "Watch". -/
theorem search_stage_characterization :
    (∀ (items : List VintageItem) (searchTerm : String) (item : VintageItem),
      item ∈ searchFilter searchTerm items ↔
        item ∈ items ∧
          (jsLower searchTerm <:+: jsLower item.name ∨
            jsLower searchTerm <:+: jsLower item.category)) ∧
    (∀ items : List VintageItem, searchFilter "" items = items) ∧
    searchFilter "wat" [watchItem] = [watchItem] := by
  refine ⟨?_, ?_, ?_⟩
  · intro items searchTerm item
    simp [searchFilter, List.mem_filter, searchPred, listIncludes_iff]
  · intro items
    apply List.filter_eq_self.mpr
    intro item _
    simp [searchPred, listIncludes_iff, jsLower, List.nil_infix]
  · rfl

/-- C2: evaluation at the failing input. Three items created at times 1 < 2 < 3
are stored newest-first; sorting by `createdAt` with direction `desc` returns
them oldest-first `[t1, t2, t3]` (the claim requires `[t3, t2, t1]`), and
direction `asc` returns newest-first: the code negates the already-descending
base comparator on `desc`, inverting both directions. -/
theorem createdAt_desc_sorts_ascending :
    filteredAndSortedItems [itemAt 3, itemAt 2, itemAt 1] "" "all" "all" "createdAt" "desc" =
      [itemAt 1, itemAt 2, itemAt 3] ∧
    filteredAndSortedItems [itemAt 3, itemAt 2, itemAt 1] "" "all" "all" "createdAt" "asc" =
      [itemAt 3, itemAt 2, itemAt 1] ∧
    ([itemAt 1, itemAt 2, itemAt 3] : List VintageItem) ≠ [itemAt 3, itemAt 2, itemAt 1] := by
  refine ⟨?_, ?_, ?_⟩
  · simp only [filteredAndSortedItems, jsSort, jsSortInsert, itemComparator, searchFilter,
      searchPred, saleFilterPred, categoryFilterPred, jsLower, listIncludes, itemAt,
      String.reduceEq, reduceIte, List.filter, List.foldr]
    norm_num
    simp only [jsSortInsert, itemComparator, String.reduceEq, reduceIte]
    norm_num
  · simp only [filteredAndSortedItems, jsSort, jsSortInsert, itemComparator, searchFilter,
      searchPred, saleFilterPred, categoryFilterPred, jsLower, listIncludes, itemAt,
      String.reduceEq, reduceIte, List.filter, List.foldr]
    norm_num
    simp only [jsSortInsert, itemComparator, String.reduceEq, reduceIte]
    norm_num
  · norm_num [itemAt]

/-- C6: whenever validation fails, `addItem` and `updateItem` report exactly
the failing field set computed by `validateForm` and leave the item
collection completely unchanged. -/
theorem add_update_failure_frame :
    (∀ (items : List VintageItem) (cand : CandidateItem) (nowMs currentYear : Int)
        (todayValue : ℚ),
      (validateForm cand currentYear todayValue).hasErrors = true →
        addItem items cand nowMs currentYear todayValue =
          (items, validateForm cand currentYear todayValue)) ∧
    (∀ (items : List VintageItem) (upd : EditingItem) (currentYear : Int) (todayValue : ℚ),
      (validateForm upd.toCandidate currentYear todayValue).hasErrors = true →
        updateItem items upd currentYear todayValue =
          (items, validateForm upd.toCandidate currentYear todayValue)) := by
  constructor
  · intro items cand nowMs currentYear todayValue h
    simp [addItem, h]
  · intro items upd currentYear todayValue h
    simp [updateItem, h]

/-- C6 witness: the failure frame evaluated on concrete invalid inputs. -/
theorem add_update_failure_frame_witness :
    (validateForm badCandidate 2025 0).hasErrors = true ∧
    (validateForm badEditingItem.toCandidate 2025 0).hasErrors = true ∧
    addItem [] badCandidate 7 2025 0 = ([], validateForm badCandidate 2025 0) ∧
    updateItem [] badEditingItem 2025 0 = ([], validateForm badEditingItem.toCandidate 2025 0) :=
  ⟨by decide, by decide,
    add_update_failure_frame.1 [] badCandidate 7 2025 0 (by decide),
    add_update_failure_frame.2 [] badEditingItem 2025 0 (by decide)⟩

/-- C10: `sellItem` and `updateItemValue` preserve the length; at every
position, a non-matching item is returned unchanged, while the matching item
gets exactly `salePrice`/`saleDate` (respectively exactly `currentValue`)
replaced with every other field preserved; and if no item carries the given
id, both leave the collection entirely unchanged. -/
theorem sell_revalue_frame :
    ∀ (items : List VintageItem) (id : Int) (price newValue : ℚ) (d : String),
      (sellItem items id price d).length = items.length ∧
      (updateItemValue items id newValue).length = items.length ∧
      (∀ (i : ℕ) (it : VintageItem), items[i]? = some it →
        ∃ o o', (sellItem items id price d)[i]? = some o ∧
          (updateItemValue items id newValue)[i]? = some o' ∧
          (it.id ≠ id → o = it ∧ o' = it) ∧
          (it.id = id →
            o.salePrice = some price ∧ o.saleDate = some d ∧
            o.id = it.id ∧ o.name = it.name ∧ o.category = it.category ∧
            o.year = it.year ∧ o.purchasePrice = it.purchasePrice ∧
            o.purchaseDate = it.purchaseDate ∧ o.currentValue = it.currentValue ∧
            o.image = it.image ∧ o.createdAt = it.createdAt ∧
            o'.currentValue = newValue ∧
            o'.id = it.id ∧ o'.name = it.name ∧ o'.category = it.category ∧
            o'.year = it.year ∧ o'.purchasePrice = it.purchasePrice ∧
            o'.purchaseDate = it.purchaseDate ∧ o'.image = it.image ∧
            o'.salePrice = it.salePrice ∧ o'.saleDate = it.saleDate ∧
            o'.createdAt = it.createdAt)) ∧
      ((∀ it ∈ items, it.id ≠ id) →
        sellItem items id price d = items ∧ updateItemValue items id newValue = items) := by
  intro items id price newValue d
  refine ⟨by simp [sellItem], by simp [updateItemValue], ?_, ?_⟩
  · intro i it h
    by_cases hid : it.id = id
    · refine ⟨{ it with salePrice := some price, saleDate := some d },
        { it with currentValue := newValue }, ?_, ?_, ?_, ?_⟩
      · simp [sellItem, List.getElem?_map, h, hid]
      · simp [updateItemValue, List.getElem?_map, h, hid]
      · intro hne
        exact absurd hid hne
      · intro _
        simp
    · refine ⟨it, it, ?_, ?_, ?_, ?_⟩
      · simp [sellItem, List.getElem?_map, h, hid]
      · simp [updateItemValue, List.getElem?_map, h, hid]
      · intro _
        exact ⟨rfl, rfl⟩
      · intro hcontra
        exact absurd hcontra hid
  · intro hno
    constructor
    · calc sellItem items id price d
          = items.map (fun x => x) :=
            List.map_congr_left (fun it hit => by simp [hno it hit])
        _ = items := by simp
    · calc updateItemValue items id newValue
          = items.map (fun x => x) :=
            List.map_congr_left (fun it hit => by simp [hno it hit])
        _ = items := by simp

/-- C10 witness: instantiated on a one-item list with a non-matching id. -/
theorem sell_revalue_frame_witness :
    sellItem [watchItem] 5 120 "02/02/2021" = [watchItem] ∧
    updateItemValue [watchItem] 5 130 = [watchItem] :=
  (sell_revalue_frame [watchItem] 5 120 130 "02/02/2021").2.2.2 (by decide)

/-- C4: the price extraction of `findSuggestedPrice` on the spec's three
gateway responses: free text yields its digits parsed as an integer (250),
a bare JSON object yields its numeric `prezzo` field (99), and a response
with no recoverable integer falls back to the item's current value. -/
theorem findSuggestedPrice_examples (cv : ℚ) :
    findSuggestedPrice respFreeText.data cv = 250 ∧
    findSuggestedPrice respJson.data cv = 99 ∧
    findSuggestedPrice respNoData.data cv = cv := by
  refine ⟨?_, ?_, ?_⟩
  · have h : findSuggestedPrice respFreeText.data cv = ((250 : Int) : ℚ) := rfl
    rw [h]
    norm_num
  · have h : findSuggestedPrice respJson.data cv = ((99 : Int) : ℚ) := rfl
    rw [h]
    norm_num
  · rfl

/-- The `substring` cut of `parseJSONContent` is a contiguous substring. -/
theorem jsSubstring_contiguous (l : List Char) (a b : Int) : jsSubstring l a b <:+: l := by
  unfold jsSubstring
  exact List.IsInfix.trans ( List.IsSuffix.isInfix ( List.drop_suffix _ _))
    ( List.IsPrefix.isInfix ( List.take_prefix _ _))

/-- C5: `parseJSONContent` is all-or-nothing. A successful parse exhibits a
contiguous substring of the response that `JSON.parse`s to an object passing
all six type checks, with the result exactly its six fields; and whenever the
recovered cut parses to a value failing any of the six checks, the whole call
fails with no partial result. -/
theorem parseJSONContent_allOrNothing :
    (∀ (content : List Char) (f : SuggestedFields), parseJSONContent content = some f →
      ∃ s, s <:+: content ∧ ∃ v, jsonParse s = some v ∧ typeCheckSuggested v = some f) ∧
    (∀ (content : List Char) (v : JsonLite),
      jsonParse (jsSubstring content (indexOfChar content '\x7b')
        (lastIndexOfChar content '\x7d' + 1)) = some v →
      typeCheckSuggested v = none → parseJSONContent content = none) := by
  constructor
  · intro content f h
    unfold parseJSONContent at h
    by_cases hidx :
        (indexOfChar content '\x7b' == -1 || lastIndexOfChar content '\x7d' + 1 == -1) = true
    · rw [if_pos hidx] at h
      exact absurd h (by simp)
    · rw [if_neg hidx] at h
      refine ⟨jsSubstring content (indexOfChar content '\x7b')
        (lastIndexOfChar content '\x7d' + 1), jsSubstring_contiguous _ _ _, ?_⟩
      cases hjson : jsonParse (jsSubstring content (indexOfChar content '\x7b')
          (lastIndexOfChar content '\x7d' + 1)) with
      | none =>
        rw [hjson] at h
        exact absurd h (by simp)
      | some v =>
        rw [hjson] at h
        exact ⟨v, rfl, h⟩
  · intro content v hjson htc
    unfold parseJSONContent
    by_cases hidx :
        (indexOfChar content '\x7b' == -1 || lastIndexOfChar content '\x7d' + 1 == -1) = true
    · rw [if_pos hidx]
    · rw [if_neg hidx, hjson]
      simpa using htc

set_option maxRecDepth 10000 in
/-- C5 witness: the success direction evaluated on a concrete response that
embeds a fully-typed JSON object in surrounding prose. -/
theorem parseJSONContent_allOrNothing_witness :
    ∃ s, s <:+: goodContent.data ∧
      ∃ v, jsonParse s = some v ∧ typeCheckSuggested v = some goodFields :=
  parseJSONContent_allOrNothing.1 goodContent.data goodFields (by rfl)

end DataVault
